import Mathlib

/-!
Shallow embedding of the emission-factor revision resolver of the ESG
reporting backend (routes/emission_factors.py, routes/measurements.py,
models/esg_models.py).

Database rows become Lean structures; the database session becomes an
explicit `DB` state (lists of rows, list order standing for the row order
the ORM queries observe); route handlers become pure functions from `DB`
to `Except ApiError DB` (HTTP 404 → `notFound`, HTTP 400 validation
errors → `invalidState`).  Floats are idealised as rationals; dates and
timestamps are idealised as integers, with the current clock passed
explicitly as a `now` argument.  JSON request bodies arrive as already
parsed structures (the missing-field checks of the HTTP layer are glue
outside this model).
-/

/-- Row of table `emission_factor` (models/esg_models.py). -/
structure EmissionFactor where
  id : Int
  name : String
  scope : Int
  category : String
  sub_category : Option String
  factor_value : ℚ
  unit : String
  source : String
  effective_date : Int
  description : Option String
  link : Option String
  created_at : Int
  updated_at : Int
deriving DecidableEq, Repr

/-- Row of table `emission_factor_revision` (models/esg_models.py). -/
structure EmissionFactorRevision where
  id : Int
  parent_factor_id : Int
  name : String
  scope : Int
  category : String
  sub_category : Option String
  factor_value : ℚ
  unit : String
  source : String
  effective_date : Int
  description : Option String
  link : Option String
  revision_notes : String
  version : Int
  is_active : Bool
  created_at : Int
  created_by : String
deriving DecidableEq, Repr

/-- Row of table `measurement` (models/esg_models.py). -/
structure Measurement where
  id : Int
  date : Int
  location : Option String
  category : String
  sub_category : Option String
  amount : ℚ
  unit : String
  emission_factor_id : Int
  calculated_emissions : ℚ
  notes : Option String
  created_at : Int
  updated_at : Int
deriving DecidableEq, Repr

/-- The database state the three routes read and write. -/
structure DB where
  factors : List EmissionFactor
  revisions : List EmissionFactorRevision
  measurements : List Measurement
deriving DecidableEq, Repr

/-- Error outcomes of the handlers: `notFound` models the HTTP 404
responses, `invalidState` the HTTP 400 validation responses. -/
inductive ApiError where
  | notFound
  | invalidState
deriving DecidableEq, Repr

/-- `get_active_emission_factor_value` (routes/measurements.py, lines
52-72): first query the active revision for the parent id; if present
return its `factor_value`; otherwise fall back to the base factor's
`factor_value`; if neither exists return `None`.  A pure lookup. -/
def get_active_emission_factor_value (s : DB) (emission_factor_id : Int) : Option ℚ :=
  match s.revisions.find? (fun r => r.parent_factor_id == emission_factor_id && r.is_active) with
  | some active_revision => some active_revision.factor_value
  | none =>
    match s.factors.find? (fun f => f.id == emission_factor_id) with
    | some base_factor => some base_factor.factor_value
    | none => none

/-- The field copy of `activate_revision` lines 352-365: the parent
factor takes the revision's data fields and a fresh `updated_at`. -/
def mirrorRevision (f : EmissionFactor) (rev : EmissionFactorRevision) (now : Int) : EmissionFactor :=
  { f with
    name := rev.name
    scope := rev.scope
    category := rev.category
    sub_category := rev.sub_category
    factor_value := rev.factor_value
    unit := rev.unit
    source := rev.source
    effective_date := rev.effective_date
    description := rev.description
    link := rev.link
    updated_at := now }

/-- `activate_revision` (routes/emission_factors.py, lines 330-382):
look the revision up by id (404 when absent); bulk-set `is_active =
false` on every revision sharing its `parent_factor_id`; set the target
active; mirror its fields onto the parent factor row when that row
exists (the code guards `if factor:`). -/
def activate_revision (s : DB) (revision_id : Int) (now : Int) : Except ApiError DB :=
  match s.revisions.find? (fun r => r.id == revision_id) with
  | none => .error .notFound
  | some revision =>
    let deactivated := s.revisions.map (fun r =>
      if r.parent_factor_id == revision.parent_factor_id then { r with is_active := false } else r)
    let activated := deactivated.map (fun r =>
      if r.id == revision_id then { r with is_active := true } else r)
    let factors := s.factors.map (fun f =>
      if f.id == revision.parent_factor_id then mirrorRevision f revision now else f)
    .ok { s with revisions := activated, factors := factors }

/-- The request body of `create_revision`, already parsed. -/
structure RevisionInput where
  name : String
  scope : Int
  category : String
  sub_category : Option String
  factor_value : ℚ
  unit : String
  source : String
  effective_date : Int
  description : Option String
  link : Option String
  revision_notes : String
  created_by : String
deriving DecidableEq, Repr

/-- Fresh primary key for a new revision row, modelling the database's
autoincrement as one more than the largest id present. -/
def nextRevisionId (s : DB) : Int :=
  (s.revisions.map (fun r => r.id)).foldl max 0 + 1

/-- `create_revision` (routes/emission_factors.py, lines 249-311): 404
when the parent factor is absent; next version is
`scalar() or 0` + 1 over `max(version)` of the parent's revisions
(`none` and `0` both collapse to `0`); the new row is appended with
`is_active = False`. -/
def create_revision (s : DB) (factor_id : Int) (data : RevisionInput) (now : Int) :
    Except ApiError DB :=
  match s.factors.find? (fun f => f.id == factor_id) with
  | none => .error .notFound
  | some _ =>
    let versions := (s.revisions.filter (fun r => r.parent_factor_id == factor_id)).map
      (fun r => r.version)
    let max_version := match versions.max? with
      | none => 0
      | some v => if v == 0 then 0 else v
    let next_version := max_version + 1
    let new_revision : EmissionFactorRevision :=
      { id := nextRevisionId s
        parent_factor_id := factor_id
        name := data.name
        scope := data.scope
        category := data.category
        sub_category := data.sub_category
        factor_value := data.factor_value
        unit := data.unit
        source := data.source
        effective_date := data.effective_date
        description := data.description
        link := data.link
        revision_notes := data.revision_notes
        version := next_version
        is_active := false
        created_at := now
        created_by := data.created_by }
    .ok { s with revisions := s.revisions ++ [new_revision] }

/-- `delete_revision` (routes/emission_factors.py, lines 386-432): 404
when absent; 400 when the target is active; 400 when it is the only
revision of its parent; otherwise remove exactly that row. -/
def delete_revision (s : DB) (revision_id : Int) : Except ApiError DB :=
  match s.revisions.find? (fun r => r.id == revision_id) with
  | none => .error .notFound
  | some revision =>
    if revision.is_active then .error .invalidState
    else
      let revision_count := (s.revisions.filter
        (fun r => r.parent_factor_id == revision.parent_factor_id)).length
      if revision_count ≤ 1 then .error .invalidState
      else .ok { s with revisions := s.revisions.eraseP (fun r => r.id == revision_id) }

/-- `delete_emission_factor` (routes/emission_factors.py, lines
436-459): 404 when absent; bulk-delete every revision with that
`parent_factor_id`; delete the factor row.  Measurements are not
touched. -/
def delete_emission_factor (s : DB) (factor_id : Int) : Except ApiError DB :=
  match s.factors.find? (fun f => f.id == factor_id) with
  | none => .error .notFound
  | some _ =>
    .ok { s with
      revisions := s.revisions.filter (fun r => !(r.parent_factor_id == factor_id))
      factors := s.factors.eraseP (fun f => f.id == factor_id) }

/-- One iteration of the `recalculate_all_emissions` loop (lines
496-505): resolve; the Python truthiness test `if active_factor_value:`
passes only for a non-`None`, non-zero value; then overwrite only when
`abs(old - new) > 0.001`.  Returns the (possibly updated) row and
whether it was counted as updated. -/
def recalcMeasurement (s : DB) (now : Int) (m : Measurement) : Measurement × Bool :=
  match get_active_emission_factor_value s m.emission_factor_id with
  | none => (m, false)
  | some v =>
    if v == 0 then (m, false)
    else if |m.calculated_emissions - m.amount * v| > (1 : ℚ) / 1000 then
      ({ m with calculated_emissions := m.amount * v, updated_at := now }, true)
    else (m, false)

/-- The JSON payload of `recalculate_all_emissions` (lines 509-514):
`updated_count` and `total_measurements`.  The `message` string carries
only `updated_count` again, so this record is the whole information
content of the response. -/
structure RecalcResult where
  updated_count : Nat
  total_measurements : Nat
deriving DecidableEq, Repr

/-- `recalculate_all_emissions` (routes/measurements.py, lines 490-521):
scan every measurement, apply the loop body, commit, and report the
counts.  The loop only mutates measurement rows, so resolving against
the pre-state is exact. -/
def recalculate_all_emissions (s : DB) (now : Int) : DB × RecalcResult :=
  let results := s.measurements.map (recalcMeasurement s now)
  ({ s with measurements := results.map Prod.fst },
   { updated_count := (results.filter (fun p => p.snd)).length
     total_measurements := s.measurements.length })

/-- The `total_emissions` accumulation of `get_measurements_summary`
(routes/measurements.py, lines 440-450): per measurement, resolve and
add `amount * value` only when the value passes the same truthiness
test.  The final `round(..., 2)` of the handler is presentation; the
scope and category accumulators sit behind the identical guard. -/
def summaryTotalEmissions (s : DB) : ℚ :=
  s.measurements.foldl (fun total m =>
    match get_active_emission_factor_value s m.emission_factor_id with
    | none => total
    | some v => if v == 0 then total else total + m.amount * v) 0

/-- Number of active revisions a given parent factor id has. -/
def activeRevCount (s : DB) (fid : Int) : Nat :=
  s.revisions.countP (fun r => r.parent_factor_id == fid && r.is_active)

/-- The spec's invariant: every parent factor id has at most one active
revision. -/
def ActiveInvariant (s : DB) : Prop :=
  ∀ fid : Int, activeRevCount s fid ≤ 1

/-- Rows of `recalculate_all_emissions` skipped because their factor
value does not resolve at all (the spec's "unresolvable rows"). -/
def skippedCount (s : DB) : Nat :=
  s.measurements.countP (fun m => (get_active_emission_factor_value s m.emission_factor_id).isNone)

/-- Version numbers of the revisions of one parent factor. -/
def parentVersions (s : DB) (fid : Int) : List Int :=
  (s.revisions.filter (fun r => r.parent_factor_id == fid)).map (fun r => r.version)

/-- The update condition of one recalculation row, as the loop body
tests it: the value resolves, is non-zero, and the cached emissions
differ from the recomputed product by more than 0.001. -/
def needsUpdate (s : DB) (m : Measurement) : Bool :=
  match get_active_emission_factor_value s m.emission_factor_id with
  | none => false
  | some v => !(v == 0) && decide (|m.calculated_emissions - m.amount * v| > (1 : ℚ) / 1000)

/-- Post-state of a successful activation of revision `rev` (looked up
under id `rid`): all sibling revisions inactive, the target active, the
parent factor row (wherever present) mirroring the revision's data
fields with `updated_at = now`, measurements untouched, and the resolver
now answering the revision's value. -/
def ActivatedState (s : DB) (rid : Int) (now : Int) (rev : EmissionFactorRevision)
    (s' : DB) : Prop :=
  (∀ r ∈ s'.revisions, r.parent_factor_id = rev.parent_factor_id → r.id ≠ rid →
    r.is_active = false) ∧
  (∀ r ∈ s'.revisions, r.id = rid → r.is_active = true) ∧
  (∀ f ∈ s'.factors, f.id = rev.parent_factor_id →
    f.name = rev.name ∧ f.scope = rev.scope ∧ f.category = rev.category ∧
    f.sub_category = rev.sub_category ∧ f.factor_value = rev.factor_value ∧
    f.unit = rev.unit ∧ f.source = rev.source ∧ f.effective_date = rev.effective_date ∧
    f.description = rev.description ∧ f.updated_at = now) ∧
  s'.measurements = s.measurements ∧
  get_active_emission_factor_value s' rev.parent_factor_id = some rev.factor_value

/-- The resolver's contract at one factor id, case by case: active
revision found → its value; none found but the base factor exists → the
base value; no base factor → `none`. -/
def ResolverSpec (s : DB) (fid : Int) : Prop :=
  (∀ rv, s.revisions.find? (fun r => r.parent_factor_id == fid && r.is_active) = some rv →
    get_active_emission_factor_value s fid = some rv.factor_value) ∧
  (s.revisions.find? (fun r => r.parent_factor_id == fid && r.is_active) = none →
    ∀ f, s.factors.find? (fun g => g.id == fid) = some f →
      get_active_emission_factor_value s fid = some f.factor_value) ∧
  (s.factors.find? (fun g => g.id == fid) = none →
    get_active_emission_factor_value s fid = none)

/-- Per-row behaviour of bulk recalculation at row index `i` holding
measurement `m`: overwritten exactly for a resolved non-zero value with
a difference above the 0.001 threshold, otherwise the row is returned
unchanged (timestamp included). -/
def RecalcRowSpec (s : DB) (now : Int) (i : Nat) (m : Measurement) : Prop :=
  (∀ v, get_active_emission_factor_value s m.emission_factor_id = some v → ¬v = 0 →
    |m.calculated_emissions - m.amount * v| > (1 : ℚ) / 1000 →
    (recalculate_all_emissions s now).1.measurements[i]?
      = some { m with calculated_emissions := m.amount * v, updated_at := now }) ∧
  ((get_active_emission_factor_value s m.emission_factor_id = none ∨
      get_active_emission_factor_value s m.emission_factor_id = some 0 ∨
      (∀ v, get_active_emission_factor_value s m.emission_factor_id = some v →
        |m.calculated_emissions - m.amount * v| ≤ (1 : ℚ) / 1000)) →
    (recalculate_all_emissions s now).1.measurements[i]? = some m)

/-- The guards of `delete_revision`: 404 for an unknown id; 400 exactly
when the target is active or the sole revision of its parent; otherwise
success, removing that one row and nothing else.  (Error results model
the handler's rollback: no state is committed.) -/
def DeleteRevisionSpec (s : DB) (rid : Int) : Prop :=
  (s.revisions.find? (fun r => r.id == rid) = none →
    delete_revision s rid = .error .notFound) ∧
  (∀ rev, s.revisions.find? (fun r => r.id == rid) = some rev →
    1 ≤ (s.revisions.filter (fun r => r.parent_factor_id == rev.parent_factor_id)).length ∧
    ((rev.is_active = true ∨
        (s.revisions.filter (fun r => r.parent_factor_id == rev.parent_factor_id)).length = 1) →
      delete_revision s rid = .error .invalidState) ∧
    (rev.is_active = false →
      2 ≤ (s.revisions.filter (fun r => r.parent_factor_id == rev.parent_factor_id)).length →
      ∃ l1 l2, s.revisions = l1 ++ rev :: l2 ∧ (∀ x ∈ l1, x.id ≠ rid) ∧
        delete_revision s rid = .ok { s with revisions := l1 ++ l2 }))

/-- Post-state of deleting a factor: measurements untouched, every
revision of that parent gone and no other revision or factor disturbed,
the factor row gone, and the resolver answering `none` for the deleted
id. -/
def DeleteFactorSpec (s : DB) (fid : Int) (s' : DB) : Prop :=
  s'.measurements = s.measurements ∧
  (∀ r ∈ s'.revisions, r.parent_factor_id ≠ fid) ∧
  (∀ r ∈ s.revisions, r.parent_factor_id ≠ fid → r ∈ s'.revisions) ∧
  (∀ r ∈ s'.revisions, r ∈ s.revisions) ∧
  (∀ g ∈ s'.factors, g.id ≠ fid) ∧
  (∀ g ∈ s.factors, g.id ≠ fid → g ∈ s'.factors) ∧
  get_active_emission_factor_value s' fid = none

/-- What `create_revision` guarantees about the appended row: inactive,
attached to the requested parent, carrying the next version number
(`max + 1`, `1` when the parent had none), and invisible to the
resolver until an explicit activation. -/
def CreatedRevisionSpec (s : DB) (fid : Int) (rev : EmissionFactorRevision) : Prop :=
  rev.is_active = false ∧ rev.parent_factor_id = fid ∧
  rev.version = (match (parentVersions s fid).max? with | none => 1 | some v => v + 1) ∧
  ∀ x : Int, get_active_emission_factor_value { s with revisions := s.revisions ++ [rev] } x
    = get_active_emission_factor_value s x

/-- Sample base factor used by the concrete witnesses. -/
def sampleFactor : EmissionFactor :=
  { id := 1, name := "Grid Electricity", scope := 2, category := "electricity"
    sub_category := none, factor_value := 1/2, unit := "kg CO2e/kWh", source := "EPA"
    effective_date := 0, description := none, link := none, created_at := 0, updated_at := 0 }

/-- Sample inactive revision (id 1, version 1) of `sampleFactor`. -/
def sampleRevision1 : EmissionFactorRevision :=
  { id := 1, parent_factor_id := 1, name := "Grid Electricity", scope := 2
    category := "electricity", sub_category := none, factor_value := 3/5
    unit := "kg CO2e/kWh", source := "EPA", effective_date := 0, description := none
    link := none, revision_notes := "first revision", version := 1, is_active := false
    created_at := 0, created_by := "System" }

/-- Sample active revision (id 2, version 2) of `sampleFactor`. -/
def sampleRevision2 : EmissionFactorRevision :=
  { sampleRevision1 with
    id := 2
    factor_value := 4/5
    revision_notes := "second revision"
    version := 2
    is_active := true }

/-- Sample measurement referencing `sampleFactor`. -/
def sampleMeasurement : Measurement :=
  { id := 1, date := 0, location := none, category := "electricity", sub_category := none
    amount := 100, unit := "kWh", emission_factor_id := 1, calculated_emissions := 50
    notes := none, created_at := 0, updated_at := 0 }

/-- Sample database: one factor, two revisions (the second active), one
measurement. -/
def sampleDB : DB :=
  { factors := [sampleFactor], revisions := [sampleRevision1, sampleRevision2]
    measurements := [sampleMeasurement] }

/-- `sampleDB` after deleting the inactive revision 1. -/
def sampleDBDel : DB :=
  { factors := [sampleFactor], revisions := [sampleRevision2]
    measurements := [sampleMeasurement] }

/-- Factor whose stored coefficient is exactly zero. -/
def zeroFactor : EmissionFactor := { sampleFactor with factor_value := 0 }

/-- Measurement whose cached emissions (5) differ from the recomputed
product (1 * 0 = 0) by far more than the 0.001 threshold. -/
def staleMeasurement : Measurement :=
  { sampleMeasurement with amount := 1, calculated_emissions := 5 }

/-- Database where the resolver yields exactly `0` for the measurement's
factor: the claimed overwrite does not happen. -/
def zeroValueDB : DB :=
  { factors := [zeroFactor], revisions := [], measurements := [staleMeasurement] }

/-- Measurement referencing a factor id (7) that does not exist. -/
def danglingMeasurement : Measurement := { sampleMeasurement with emission_factor_id := 7 }

/-- Database whose single measurement resolves and needs no update. -/
def resolvedDB : DB :=
  { factors := [sampleFactor], revisions := [], measurements := [sampleMeasurement] }

/-- Database whose single measurement is unresolvable (dangling factor
id), hence skipped by recalculation. -/
def skippedDB : DB :=
  { factors := [sampleFactor], revisions := [], measurements := [danglingMeasurement] }

/-- Database with a factor and no revisions at all. -/
def noRevisionDB : DB :=
  { factors := [sampleFactor], revisions := [], measurements := [] }

/-- `sampleDB` after activating revision 1 at time 5: revision 1
active, revision 2 deactivated, the factor mirrored from revision 1. -/
def sampleDBAct : DB :=
  { factors := [mirrorRevision sampleFactor sampleRevision1 5]
    revisions := [{ sampleRevision1 with is_active := true },
      { sampleRevision2 with is_active := false }]
    measurements := [sampleMeasurement] }

/-- Database mixing one unresolvable measurement with one that
resolves and needs an update. -/
def mixedDB : DB :=
  { factors := [sampleFactor], revisions := [sampleRevision1, sampleRevision2]
    measurements := [danglingMeasurement, sampleMeasurement] }

/-- Sample parsed body for `create_revision`. -/
def sampleInput : RevisionInput :=
  { name := "Grid Electricity", scope := 2, category := "electricity", sub_category := none
    factor_value := 9/10, unit := "kg CO2e/kWh", source := "EPA", effective_date := 0
    description := none, link := none, revision_notes := "tighter grid mix"
    created_by := "System" }

/-! ### Helper lemmas -/

theorem countP_congr_mem {α : Type} {p q : α → Bool} :
    ∀ {l : List α}, (∀ a ∈ l, p a = q a) → l.countP p = l.countP q := by
  intro l
  induction l with
  | nil => intro _; rfl
  | cons x xs ih =>
    intro h
    rw [List.countP_cons, List.countP_cons, h x (by simp), ih (fun a ha => h a (by simp [ha]))]

theorem countP_mono_mem {α : Type} {p q : α → Bool} :
    ∀ {l : List α}, (∀ a ∈ l, p a = true → q a = true) → l.countP p ≤ l.countP q := by
  intro l
  induction l with
  | nil => intro _; exact Nat.le_refl 0
  | cons x xs ih =>
    intro h
    rw [List.countP_cons, List.countP_cons]
    have hxs := ih (fun a ha => h a (by simp [ha]))
    by_cases hx : p x = true
    · rw [if_pos hx, if_pos (h x (by simp) hx)]
      omega
    · rw [if_neg hx]
      split <;> omega

theorem countP_id_le_one {l : List EmissionFactorRevision}
    (h : (l.map (fun r => r.id)).Nodup) (rid : Int) :
    l.countP (fun r => r.id == rid) ≤ 1 := by
  induction l with
  | nil => simp
  | cons x xs ih =>
    simp only [List.map_cons, List.nodup_cons, List.mem_map] at h
    obtain ⟨hx, hxs⟩ := h
    rw [List.countP_cons]
    by_cases hid : (x.id == rid) = true
    · have hzero : xs.countP (fun r => r.id == rid) = 0 := by
        rw [List.countP_eq_zero]
        intro r hr hc
        simp only [beq_iff_eq] at hid hc
        exact hx ⟨r, hr, by rw [hc, hid]⟩
      rw [hzero, if_pos hid]
    · rw [if_neg hid]
      have := ih hxs
      omega

theorem find?_eraseP_decomp {α : Type} (p : α → Bool) :
    ∀ (l : List α) (a : α), l.find? p = some a →
      ∃ l1 l2, l = l1 ++ a :: l2 ∧ (∀ x ∈ l1, p x = false) ∧ l.eraseP p = l1 ++ l2 := by
  intro l
  induction l with
  | nil => intro a h; simp at h
  | cons x xs ih =>
    intro a h
    cases hx : p x with
    | true =>
      rw [List.find?_cons_of_pos _ hx] at h
      injection h with h'
      subst h'
      exact ⟨[], xs, rfl, by simp, by simp [List.eraseP_cons, hx]⟩
    | false =>
      rw [List.find?_cons_of_neg _ (by simp [hx])] at h
      obtain ⟨l1, l2, heq, hall, herase⟩ := ih a h
      refine ⟨x :: l1, l2, by simp [heq], ?_, ?_⟩
      · intro y hy
        rcases List.mem_cons.mp hy with rfl | hy'
        · exact hx
        · exact hall y hy'
      · simp [List.eraseP_cons, hx, herase]

theorem activeInvariant_check (s : DB)
    (h : s.revisions.all (fun r => decide (activeRevCount s r.parent_factor_id ≤ 1)) = true) :
    ActiveInvariant s := by
  intro fid
  by_contra hgt
  push_neg at hgt
  have hpos : 0 < activeRevCount s fid := by omega
  rw [activeRevCount, List.countP_pos_iff] at hpos
  obtain ⟨r, hr, hpr⟩ := hpos
  simp only [Bool.and_eq_true, beq_iff_eq] at hpr
  have hle := of_decide_eq_true (List.all_eq_true.mp h r hr)
  rw [hpr.1] at hle
  omega

theorem db_eta (t : DB) (ms : List Measurement) (h : ms = t.measurements) :
    ({ t with measurements := ms } : DB) = t := by
  cases t
  simp only [DB.mk.injEq, true_and]
  simpa using h

/-! ### Resolver (claim C3) -/

/-- Claim C3: the active-value resolver returns the active revision's
`factor_value` when one exists, otherwise the base factor's own
`factor_value` (so a factor with zero revisions resolves to its base
value), and `none` when no factor with that id exists (assuming
referential integrity: every revision's parent exists).  It is a pure
function of the state. -/
theorem resolver_returns_active_then_base (s : DB) (fid : Int)
    (href : ∀ r ∈ s.revisions, ∃ f ∈ s.factors, f.id = r.parent_factor_id) :
    ResolverSpec s fid := by
  refine ⟨?_, ?_, ?_⟩
  · intro rv h
    simp [get_active_emission_factor_value, h]
  · intro h f hf
    simp [get_active_emission_factor_value, h, hf]
  · intro h
    have hnone : s.revisions.find? (fun r => r.parent_factor_id == fid && r.is_active) = none := by
      cases hc : s.revisions.find? (fun r => r.parent_factor_id == fid && r.is_active) with
      | none => rfl
      | some rv =>
        have hmem := List.mem_of_find?_eq_some hc
        have hpred := List.find?_some hc
        simp only [Bool.and_eq_true, beq_iff_eq] at hpred
        obtain ⟨f, hfmem, hfid⟩ := href rv hmem
        have hsome : (s.factors.find? (fun g => g.id == fid)).isSome := by
          rw [List.find?_isSome]
          exact ⟨f, hfmem, by simp [hfid, hpred.1]⟩
        rw [h] at hsome
        simp at hsome
    simp [get_active_emission_factor_value, hnone, h]

theorem resolver_returns_active_then_base_witness :
    (∀ r ∈ sampleDB.revisions, ∃ f ∈ sampleDB.factors, f.id = r.parent_factor_id) ∧
    ResolverSpec sampleDB 1 ∧ ResolverSpec sampleDB 99 :=
  ⟨by decide, resolver_returns_active_then_base sampleDB 1 (by decide),
    resolver_returns_active_then_base sampleDB 99 (by decide)⟩

/-! ### Bulk recalculation basics -/

theorem recalc_state_factors (s : DB) (now : Int) :
    (recalculate_all_emissions s now).1.factors = s.factors := rfl

theorem recalc_state_revisions (s : DB) (now : Int) :
    (recalculate_all_emissions s now).1.revisions = s.revisions := rfl

theorem recalc_state_measurements (s : DB) (now : Int) :
    (recalculate_all_emissions s now).1.measurements
      = s.measurements.map (fun m => (recalcMeasurement s now m).1) := by
  simp [recalculate_all_emissions, List.map_map]

theorem recalcMeasurement_none (s : DB) (now : Int) (m : Measurement)
    (h : get_active_emission_factor_value s m.emission_factor_id = none) :
    recalcMeasurement s now m = (m, false) := by
  simp [recalcMeasurement, h]

theorem recalcMeasurement_zero (s : DB) (now : Int) (m : Measurement)
    (h : get_active_emission_factor_value s m.emission_factor_id = some 0) :
    recalcMeasurement s now m = (m, false) := by
  simp [recalcMeasurement, h]

theorem recalcMeasurement_small (s : DB) (now : Int) (m : Measurement) (v : ℚ)
    (h : get_active_emission_factor_value s m.emission_factor_id = some v)
    (hd : ¬|m.calculated_emissions - m.amount * v| > (1 : ℚ) / 1000) :
    recalcMeasurement s now m = (m, false) := by
  by_cases h0 : v = 0
  · subst h0
    exact recalcMeasurement_zero s now m h
  · simp [recalcMeasurement, h, h0, hd]
    rw [gt_iff_lt, not_lt, one_div] at hd
    exact hd

theorem recalcMeasurement_update (s : DB) (now : Int) (m : Measurement) (v : ℚ)
    (h : get_active_emission_factor_value s m.emission_factor_id = some v)
    (h0 : ¬v = 0)
    (hd : |m.calculated_emissions - m.amount * v| > (1 : ℚ) / 1000) :
    recalcMeasurement s now m
      = ({ m with calculated_emissions := m.amount * v, updated_at := now }, true) := by
  simp [recalcMeasurement, h, h0, hd]
  rw [gt_iff_lt, one_div] at hd
  exact hd

theorem recalcMeasurement_stable (s : DB) (now now' : Int) (m : Measurement) :
    recalcMeasurement s now' ((recalcMeasurement s now m).1)
      = ((recalcMeasurement s now m).1, false) := by
  cases h : get_active_emission_factor_value s m.emission_factor_id with
  | none =>
    rw [recalcMeasurement_none s now m h]
    exact recalcMeasurement_none s now' m h
  | some v =>
    by_cases h0 : v = 0
    · subst h0
      rw [recalcMeasurement_zero s now m h]
      exact recalcMeasurement_zero s now' m h
    · by_cases hd : |m.calculated_emissions - m.amount * v| > (1 : ℚ) / 1000
      · rw [recalcMeasurement_update s now m v h h0 hd]
        have h' : get_active_emission_factor_value s
            ({ m with calculated_emissions := m.amount * v, updated_at := now } :
              Measurement).emission_factor_id = some v := h
        apply recalcMeasurement_small s now' _ v h'
        simp
      · rw [recalcMeasurement_small s now m v h hd]
        exact recalcMeasurement_small s now' m v h hd

theorem filter_snd_map_false {α : Type} (l : List α) :
    ((l.map (fun a => (a, false))).filter (fun p => p.snd)).length = 0 := by
  induction l with
  | nil => rfl
  | cons x xs ih => simp

/-- Claim C5: bulk recalculation is idempotent.  Running it twice in a
row with no intervening activation or measurement changes leaves the
whole state fixed and reports zero updates on the second run. -/
theorem recalculate_idempotent (s : DB) (now now' : Int) :
    (recalculate_all_emissions (recalculate_all_emissions s now).1 now').1
      = (recalculate_all_emissions s now).1 ∧
    (recalculate_all_emissions (recalculate_all_emissions s now).1 now').2.updated_count
      = 0 := by
  have hstable : ∀ a ∈ (recalculate_all_emissions s now).1.measurements,
      recalcMeasurement (recalculate_all_emissions s now).1 now' a = (a, false) := by
    intro a ha
    rw [recalc_state_measurements] at ha
    obtain ⟨m, hm, rfl⟩ := List.mem_map.mp ha
    exact recalcMeasurement_stable s now now' m
  constructor
  · show ({ (recalculate_all_emissions s now).1 with measurements :=
        ((recalculate_all_emissions s now).1.measurements.map
          (recalcMeasurement (recalculate_all_emissions s now).1 now')).map Prod.fst } : DB)
      = (recalculate_all_emissions s now).1
    apply db_eta
    rw [List.map_congr_left hstable, List.map_map]
    simp [Function.comp_def]
  · show (((recalculate_all_emissions s now).1.measurements.map
        (recalcMeasurement (recalculate_all_emissions s now).1 now')).filter
          (fun p => p.snd)).length = 0
    rw [List.map_congr_left hstable]
    exact filter_snd_map_false _

theorem recalc_updated_count (s : DB) (now : Int) :
    (recalculate_all_emissions s now).2.updated_count
      = ((s.measurements.map (recalcMeasurement s now)).filter (fun p => p.snd)).length := rfl

theorem recalc_total (s : DB) (now : Int) :
    (recalculate_all_emissions s now).2.total_measurements = s.measurements.length := rfl

theorem recalcMeasurement_state_irrel (s : DB) (ms : List Measurement) (now : Int) :
    recalcMeasurement { s with measurements := ms } now = recalcMeasurement s now := rfl

theorem summaryTotal_measurements (s : DB) (ms : List Measurement) :
    summaryTotalEmissions { s with measurements := ms }
      = ms.foldl (fun total m =>
          match get_active_emission_factor_value s m.emission_factor_id with
          | none => total
          | some v => if v == 0 then total else total + m.amount * v) 0 := rfl

theorem summaryTotal_def (s : DB) :
    summaryTotalEmissions s
      = s.measurements.foldl (fun total m =>
          match get_active_emission_factor_value s m.emission_factor_id with
          | none => total
          | some v => if v == 0 then total else total + m.amount * v) 0 := rfl

/-- Claim C9: a factor value that resolves to exactly 0 is treated by
the truthiness check `if active_factor_value:` the same as an
unresolvable one.  Such a measurement is never overwritten by bulk
recalculation (even when its cached emissions are far off) and
contributes nothing to the summary totals: removing the row changes
neither the recalculation's update count nor the summary total. -/
theorem zero_factor_value_skipped (s : DB) (now : Int) (i : Nat) (m : Measurement)
    (hm : s.measurements[i]? = some m)
    (h0 : get_active_emission_factor_value s m.emission_factor_id = some 0) :
    (recalculate_all_emissions s now).1.measurements[i]? = some m ∧
    (recalculate_all_emissions s now).2.updated_count
      = (recalculate_all_emissions
          { s with measurements := s.measurements.eraseIdx i } now).2.updated_count ∧
    summaryTotalEmissions s
      = summaryTotalEmissions { s with measurements := s.measurements.eraseIdx i } := by
  have hlt : i < s.measurements.length := (List.getElem?_eq_some.mp hm).1
  have hget : s.measurements[i] = m := by
    obtain ⟨h1, h2⟩ := List.getElem?_eq_some.mp hm
    exact h2
  have hsplit : s.measurements = s.measurements.take i ++ m :: s.measurements.drop (i + 1) := by
    conv_lhs => rw [← List.take_append_drop i s.measurements]
    rw [List.drop_eq_getElem_cons hlt, hget]
  have herase : s.measurements.eraseIdx i
      = s.measurements.take i ++ s.measurements.drop (i + 1) :=
    List.eraseIdx_eq_take_drop_succ s.measurements i
  refine ⟨?_, ?_, ?_⟩
  · rw [recalc_state_measurements, List.getElem?_map, hm]
    simp [recalcMeasurement_zero s now m h0]
  · rw [recalc_updated_count, recalc_updated_count]
    simp only [recalcMeasurement_state_irrel]
    rw [herase]
    conv_lhs => rw [hsplit]
    simp [recalcMeasurement_zero s now m h0]
  · rw [summaryTotal_def, summaryTotal_measurements, herase]
    conv_lhs => rw [hsplit]
    rw [List.foldl_append, List.foldl_append, List.foldl_cons]
    congr 1
    simp [h0]

theorem zero_factor_value_skipped_witness :
    zeroValueDB.measurements[0]? = some staleMeasurement ∧
    get_active_emission_factor_value zeroValueDB staleMeasurement.emission_factor_id
      = some 0 ∧
    ((recalculate_all_emissions zeroValueDB 3).1.measurements[0]? = some staleMeasurement ∧
      (recalculate_all_emissions zeroValueDB 3).2.updated_count
        = (recalculate_all_emissions
            { zeroValueDB with
              measurements := zeroValueDB.measurements.eraseIdx 0 } 3).2.updated_count ∧
      summaryTotalEmissions zeroValueDB
        = summaryTotalEmissions
            { zeroValueDB with measurements := zeroValueDB.measurements.eraseIdx 0 }) :=
  ⟨by decide, by decide, zero_factor_value_skipped zeroValueDB 3 0 staleMeasurement
    (by decide) (by decide)⟩

theorem recalcMeasurement_snd (s : DB) (now : Int) (m : Measurement) :
    (recalcMeasurement s now m).2 = needsUpdate s m := by
  cases h : get_active_emission_factor_value s m.emission_factor_id with
  | none => rw [recalcMeasurement_none s now m h]; simp [needsUpdate, h]
  | some v =>
    by_cases h0 : v = 0
    · subst h0
      rw [recalcMeasurement_zero s now m h]
      simp [needsUpdate, h]
    · by_cases hd : |m.calculated_emissions - m.amount * v| > (1 : ℚ) / 1000
      · rw [recalcMeasurement_update s now m v h h0 hd]
        simp [needsUpdate, h, h0, hd]
        rw [gt_iff_lt, one_div] at hd
        exact hd
      · rw [recalcMeasurement_small s now m v h hd]
        simp [needsUpdate, h, h0, hd]
        rw [gt_iff_lt, not_lt, one_div] at hd
        exact hd

/-- Counterexample to claim C4 as stated: in `zeroValueDB` the
measurement's factor value resolves (to `some 0`) and the cached
emissions differ from `amount * 0` by far more than 0.001, yet bulk
recalculation leaves the row untouched and reports zero updates,
because the loop's truthiness test discards the resolved value 0. -/
theorem recalculate_zero_value_counterexample :
    get_active_emission_factor_value zeroValueDB staleMeasurement.emission_factor_id
      = some 0 ∧
    |staleMeasurement.calculated_emissions - staleMeasurement.amount * 0| > (1 : ℚ) / 1000 ∧
    (recalculate_all_emissions zeroValueDB 9).1.measurements = [staleMeasurement] ∧
    (recalculate_all_emissions zeroValueDB 9).2.updated_count = 0 := by
  have hz : recalcMeasurement zeroValueDB 9 staleMeasurement = (staleMeasurement, false) :=
    recalcMeasurement_zero zeroValueDB 9 staleMeasurement (by decide)
  refine ⟨by decide, ?_, ?_, ?_⟩
  · show |(5 : ℚ) - 1 * 0| > (1 : ℚ) / 1000
    norm_num
  · rw [recalc_state_measurements]
    show [staleMeasurement].map (fun m => (recalcMeasurement zeroValueDB 9 m).1)
      = [staleMeasurement]
    simp [hz]
  · rw [recalc_updated_count]
    show (([staleMeasurement].map (recalcMeasurement zeroValueDB 9)).filter
      (fun p => p.snd)).length = 0
    simp [hz]

/-- Claim C4 (amended): bulk recalculation reports the total number of
measurements scanned and, as its update count, the number of rows whose
factor value resolves to a non-`None`, *non-zero* value differing from
the cached emissions by more than 0.001; exactly those rows are
overwritten with `amount * value` and a fresh `updated_at`, and every
other row (including rows resolving to exactly 0) is returned
unchanged. -/
theorem recalculate_rowwise (s : DB) (now : Int) :
    (recalculate_all_emissions s now).2.total_measurements = s.measurements.length ∧
    (recalculate_all_emissions s now).1.measurements.length = s.measurements.length ∧
    (recalculate_all_emissions s now).2.updated_count
      = s.measurements.countP (needsUpdate s) ∧
    ∀ i m, s.measurements[i]? = some m → RecalcRowSpec s now i m := by
  refine ⟨recalc_total s now, ?_, ?_, ?_⟩
  · rw [recalc_state_measurements, List.length_map]
  · rw [recalc_updated_count, List.filter_map, List.length_map,
      ← List.countP_eq_length_filter]
    apply countP_congr_mem
    intro m _
    exact recalcMeasurement_snd s now m
  · intro i m hm
    constructor
    · intro v hv h0 hd
      rw [recalc_state_measurements, List.getElem?_map, hm]
      simp [recalcMeasurement_update s now m v hv h0 hd]
    · intro hcase
      rw [recalc_state_measurements, List.getElem?_map, hm]
      rcases hcase with hnone | hzero | hsmall
      · simp [recalcMeasurement_none s now m hnone]
      · simp [recalcMeasurement_zero s now m hzero]
      · cases hres : get_active_emission_factor_value s m.emission_factor_id with
        | none => simp [recalcMeasurement_none s now m hres]
        | some v =>
          have hd := not_lt.mpr (hsmall v hres)
          simp [recalcMeasurement_small s now m v hres hd]

theorem recalculate_rowwise_witness :
    sampleDB.measurements[0]? = some sampleMeasurement ∧
    (recalculate_all_emissions sampleDB 7).1.measurements[0]?
      = some { sampleMeasurement with
               calculated_emissions := sampleMeasurement.amount * (4/5), updated_at := 7 } ∧
    (recalculate_all_emissions sampleDB 7).2.updated_count = 1 := by
  have hu : recalcMeasurement sampleDB 7 sampleMeasurement
      = ({ sampleMeasurement with
           calculated_emissions := sampleMeasurement.amount * (4/5), updated_at := 7 }, true) :=
    recalcMeasurement_update sampleDB 7 sampleMeasurement (4/5) (by rfl)
      (by norm_num)
      (by show |(50 : ℚ) - 100 * (4/5)| > (1 : ℚ) / 1000; norm_num)
  refine ⟨by decide, ?_, ?_⟩
  · have h := (recalculate_rowwise sampleDB 7).2.2.2 0 sampleMeasurement (by decide)
    exact h.1 (4/5) (by rfl) (by norm_num)
      (by show |(50 : ℚ) - 100 * (4/5)| > (1 : ℚ) / 1000; norm_num)
  · rw [recalc_updated_count]
    show (([sampleMeasurement].map (recalcMeasurement sampleDB 7)).filter
      (fun p => p.snd)).length = 1
    simp [hu]

theorem recalcResult_ext (a b : RecalcResult)
    (h : a.updated_count = b.updated_count)
    (h' : a.total_measurements = b.total_measurements) : a = b := by
  cases a
  cases b
  simp_all

/-- Counterexample to claim C8 as stated: the recalculation response
carries only `updated_count` and `total_measurements`.  Two databases,
one whose only measurement is skipped as unresolvable (`skippedDB`) and
one whose only measurement resolves and needs no update (`resolvedDB`),
produce identical results even though their skip counts differ, so the
result reports no skip count. -/
theorem recalculate_no_skip_count_counterexample :
    skippedCount skippedDB = 1 ∧ skippedCount resolvedDB = 0 ∧
    (recalculate_all_emissions skippedDB 0).2 = (recalculate_all_emissions resolvedDB 0).2 := by
  have hs : recalcMeasurement skippedDB 0 danglingMeasurement = (danglingMeasurement, false) :=
    recalcMeasurement_none skippedDB 0 danglingMeasurement (by rfl)
  have hr : recalcMeasurement resolvedDB 0 sampleMeasurement = (sampleMeasurement, false) :=
    recalcMeasurement_small resolvedDB 0 sampleMeasurement (1/2) (by rfl)
      (by show ¬|(50 : ℚ) - 100 * (1/2)| > (1 : ℚ) / 1000; norm_num)
  refine ⟨by decide, by decide, ?_⟩
  apply recalcResult_ext
  · rw [recalc_updated_count, recalc_updated_count]
    show (([danglingMeasurement].map (recalcMeasurement skippedDB 0)).filter
        (fun p => p.snd)).length
      = (([sampleMeasurement].map (recalcMeasurement resolvedDB 0)).filter
        (fun p => p.snd)).length
    simp [hs, hr]
  · rw [recalc_total, recalc_total]
    rfl

/-- Claim C8 (amended): bulk recalculation does not fail the whole
batch on an unresolvable row: the row passes through unchanged while
every other row is processed exactly as usual, and the result reports
the updated count and the total count — but no skip count (see the
counterexample). -/
theorem recalculate_skips_unresolvable (s : DB) (now : Int) (l1 l2 : List Measurement)
    (mbad : Measurement)
    (hsplit : s.measurements = l1 ++ mbad :: l2)
    (hbad : get_active_emission_factor_value s mbad.emission_factor_id = none) :
    (recalculate_all_emissions s now).1.measurements
      = l1.map (fun m => (recalcMeasurement s now m).1) ++ mbad ::
        l2.map (fun m => (recalcMeasurement s now m).1) ∧
    (recalculate_all_emissions s now).2.updated_count
      = l1.countP (needsUpdate s) + l2.countP (needsUpdate s) ∧
    (recalculate_all_emissions s now).2.total_measurements = l1.length + 1 + l2.length := by
  have hnb : needsUpdate s mbad = false := by
    simp [needsUpdate, hbad]
  refine ⟨?_, ?_, ?_⟩
  · rw [recalc_state_measurements, hsplit]
    simp [recalcMeasurement_none s now mbad hbad]
  · have hpred : s.measurements.countP ((fun p => p.snd) ∘ recalcMeasurement s now)
        = s.measurements.countP (needsUpdate s) :=
      countP_congr_mem (fun m _ => recalcMeasurement_snd s now m)
    rw [recalc_updated_count, List.filter_map, List.length_map,
      ← List.countP_eq_length_filter, hpred, hsplit, List.countP_append, List.countP_cons,
      hnb]
    simp
  · rw [recalc_total, hsplit]
    simp [List.length_append]
    omega

theorem recalculate_skips_unresolvable_witness :
    mixedDB.measurements = [] ++ danglingMeasurement :: [sampleMeasurement] ∧
    get_active_emission_factor_value mixedDB danglingMeasurement.emission_factor_id = none ∧
    ((recalculate_all_emissions mixedDB 0).1.measurements
      = [].map (fun m => (recalcMeasurement mixedDB 0 m).1) ++ danglingMeasurement ::
        [sampleMeasurement].map (fun m => (recalcMeasurement mixedDB 0 m).1) ∧
    (recalculate_all_emissions mixedDB 0).2.updated_count
      = ([] : List Measurement).countP (needsUpdate mixedDB)
        + [sampleMeasurement].countP (needsUpdate mixedDB) ∧
    (recalculate_all_emissions mixedDB 0).2.total_measurements
      = ([] : List Measurement).length + 1 + [sampleMeasurement].length) :=
  ⟨rfl, by decide,
    recalculate_skips_unresolvable mixedDB 0 [] [sampleMeasurement] danglingMeasurement
      rfl (by decide)⟩

/-- Claim C7: deleting a revision 404s on an unknown id; is rejected
with a validation error exactly when the target is active or is its
parent's only revision (at least one always exists once the target was
found); and otherwise succeeds, removing exactly the target row. -/
theorem delete_revision_guards (s : DB) (rid : Int) : DeleteRevisionSpec s rid := by
  constructor
  · intro h
    simp [delete_revision, h]
  · intro rev hfind
    have hmem := List.mem_of_find?_eq_some hfind
    have hcnt : 1 ≤ (s.revisions.filter
        (fun r => r.parent_factor_id == rev.parent_factor_id)).length := by
      have hin : rev ∈ s.revisions.filter
          (fun r => r.parent_factor_id == rev.parent_factor_id) :=
        List.mem_filter.mpr ⟨hmem, by simp⟩
      have := List.length_pos_of_mem hin
      omega
    refine ⟨hcnt, ?_, ?_⟩
    · intro hcond
      rcases hcond with hact | hone
      · simp [delete_revision, hfind, hact]
      · by_cases hact2 : rev.is_active
        · simp [delete_revision, hfind, hact2]
        · simp [delete_revision, hfind, hact2, hone]
    · intro hnact hcnt2
      obtain ⟨l1, l2, heq, hl1, herase⟩ := find?_eraseP_decomp _ s.revisions rev hfind
      refine ⟨l1, l2, heq, ?_, ?_⟩
      · intro x hx
        have := hl1 x hx
        simpa using this
      · simp only [delete_revision, hfind, hnact]
        have hgt : ¬(s.revisions.filter
            (fun r => r.parent_factor_id == rev.parent_factor_id)).length ≤ 1 := by omega
        rw [if_neg hgt, herase]
        simp

theorem delete_revision_guards_witness :
    DeleteRevisionSpec sampleDB 1 ∧
    delete_revision sampleDB 1 = .ok sampleDBDel ∧
    delete_revision sampleDB 2 = .error .invalidState ∧
    delete_revision sampleDB 99 = .error .notFound :=
  ⟨delete_revision_guards sampleDB 1, by rfl, by rfl, by rfl⟩

theorem get_active_append_inactive (s : DB) (rev : EmissionFactorRevision)
    (h : rev.is_active = false) (x : Int) :
    get_active_emission_factor_value { s with revisions := s.revisions ++ [rev] } x
      = get_active_emission_factor_value s x := by
  have hnone : [rev].find? (fun r => r.parent_factor_id == x && r.is_active) = none := by
    simp [List.find?, h]
  unfold get_active_emission_factor_value
  rw [show ({ s with revisions := s.revisions ++ [rev] } : DB).revisions
      = s.revisions ++ [rev] from rfl]
  rw [show ({ s with revisions := s.revisions ++ [rev] } : DB).factors = s.factors from rfl]
  rw [List.find?_append, hnone]
  cases hc : s.revisions.find? (fun r => r.parent_factor_id == x && r.is_active) <;>
    simp [hc, Option.orElse]

theorem create_revision_ok (s : DB) (fid : Int) (data : RevisionInput) (now : Int)
    (f : EmissionFactor) (hfind : s.factors.find? (fun g => g.id == fid) = some f) :
    ∃ rev, create_revision s fid data now = .ok { s with revisions := s.revisions ++ [rev] } ∧
      CreatedRevisionSpec s fid rev := by
  refine ⟨{ id := nextRevisionId s
            parent_factor_id := fid
            name := data.name
            scope := data.scope
            category := data.category
            sub_category := data.sub_category
            factor_value := data.factor_value
            unit := data.unit
            source := data.source
            effective_date := data.effective_date
            description := data.description
            link := data.link
            revision_notes := data.revision_notes
            version := (match ((s.revisions.filter
                (fun r => r.parent_factor_id == fid)).map (fun r => r.version)).max? with
              | none => 0
              | some v => if v == 0 then 0 else v) + 1
            is_active := false
            created_at := now
            created_by := data.created_by }, ?_, rfl, rfl, ?_, ?_⟩
  · simp [create_revision, hfind]
  · rw [parentVersions]
    cases h : ((s.revisions.filter
        (fun r => r.parent_factor_id == fid)).map (fun r => r.version)).max? with
    | none => simp [h]
    | some v =>
      simp only [h]
      by_cases hv : v = 0
      · subst hv
        simp
      · simp [hv]
  · intro x
    exact get_active_append_inactive s _ rfl x

/-- Claim C6: creating a revision for an existing factor assigns
`version = max(existing versions) + 1` (so 1 when none exist), always
with `is_active = false` and no effect on the resolver until an
explicit activation; three sequential creations on a factor without
revisions are numbered 1, 2, 3 with no gaps. -/
theorem create_revision_versioning (s : DB) (fid : Int) (f : EmissionFactor)
    (hfind : s.factors.find? (fun g => g.id == fid) = some f)
    (d1 d2 d3 : RevisionInput) (n1 n2 n3 : Int) :
    (∀ data now, ∃ rev, create_revision s fid data now
        = .ok { s with revisions := s.revisions ++ [rev] } ∧ CreatedRevisionSpec s fid rev) ∧
    ((∀ r ∈ s.revisions, r.parent_factor_id ≠ fid) →
      ∃ s1 s2 s3 r1 r2 r3,
        create_revision s fid d1 n1 = .ok s1 ∧ s1.revisions = s.revisions ++ [r1] ∧
          r1.version = 1 ∧
        create_revision s1 fid d2 n2 = .ok s2 ∧ s2.revisions = s1.revisions ++ [r2] ∧
          r2.version = 2 ∧
        create_revision s2 fid d3 n3 = .ok s3 ∧ s3.revisions = s2.revisions ++ [r3] ∧
          r3.version = 3) := by
  constructor
  · intro data now
    exact create_revision_ok s fid data now f hfind
  · intro hnone
    have hfil : s.revisions.filter (fun r => r.parent_factor_id == fid) = [] :=
      List.filter_eq_nil_iff.mpr (fun r hr => by simpa using hnone r hr)
    obtain ⟨r1, hok1, hia1, hpar1, hver1, _⟩ := create_revision_ok s fid d1 n1 f hfind
    rw [parentVersions, hfil] at hver1
    simp at hver1
    obtain ⟨r2, hok2, hia2, hpar2, hver2, _⟩ :=
      create_revision_ok { s with revisions := s.revisions ++ [r1] } fid d2 n2 f hfind
    have hpv1 : parentVersions { s with revisions := s.revisions ++ [r1] } fid
        = [r1.version] := by
      rw [parentVersions]
      rw [show ({ s with revisions := s.revisions ++ [r1] } : DB).revisions
          = s.revisions ++ [r1] from rfl]
      rw [List.filter_append, hfil]
      simp [hpar1]
    rw [hpv1, hver1] at hver2
    have hmax1 : ([(1 : Int)]).max? = some 1 := rfl
    rw [hmax1] at hver2
    simp at hver2
    obtain ⟨r3, hok3, hia3, hpar3, hver3, _⟩ :=
      create_revision_ok { s with revisions := (s.revisions ++ [r1]) ++ [r2] } fid d3 n3 f
        hfind
    have hpv2 : parentVersions { s with revisions := (s.revisions ++ [r1]) ++ [r2] } fid
        = [r1.version, r2.version] := by
      rw [parentVersions]
      rw [show ({ s with revisions := (s.revisions ++ [r1]) ++ [r2] } : DB).revisions
          = (s.revisions ++ [r1]) ++ [r2] from rfl]
      rw [List.filter_append, List.filter_append, hfil]
      simp [hpar1, hpar2]
    rw [hpv2, hver1, hver2] at hver3
    have hmax2 : ([(1 : Int), 2]).max? = some 2 := by
      show some (max 1 2) = some 2
      norm_num
    rw [hmax2] at hver3
    simp at hver3
    exact ⟨_, _, _, r1, r2, r3, hok1, rfl, hver1, hok2, rfl, hver2, hok3, rfl, hver3⟩

theorem create_revision_versioning_witness :
    noRevisionDB.factors.find? (fun g => g.id == 1) = some sampleFactor ∧
    (∀ r ∈ noRevisionDB.revisions, r.parent_factor_id ≠ 1) ∧
    (∃ s1 s2 s3 r1 r2 r3,
      create_revision noRevisionDB 1 sampleInput 0 = .ok s1 ∧
        s1.revisions = noRevisionDB.revisions ++ [r1] ∧ r1.version = 1 ∧
      create_revision s1 1 sampleInput 0 = .ok s2 ∧
        s2.revisions = s1.revisions ++ [r2] ∧ r2.version = 2 ∧
      create_revision s2 1 sampleInput 0 = .ok s3 ∧
        s3.revisions = s2.revisions ++ [r3] ∧ r3.version = 3) :=
  ⟨by rfl, by decide,
    (create_revision_versioning noRevisionDB 1 sampleFactor (by rfl)
      sampleInput sampleInput sampleInput 0 0 0).2 (by decide)⟩

theorem activate_find_active (rid : Int) (rev : EmissionFactorRevision) :
    ∀ l : List EmissionFactorRevision, l.find? (fun r => r.id == rid) = some rev →
      ((l.map (fun r => if r.parent_factor_id == rev.parent_factor_id then
          { r with is_active := false } else r)).map
        (fun r => if r.id == rid then { r with is_active := true } else r)).find?
        (fun r => r.parent_factor_id == rev.parent_factor_id && r.is_active)
      = some { rev with is_active := true } := by
  intro l
  induction l with
  | nil => intro h; simp at h
  | cons x xs ih =>
    intro h
    by_cases hx : (x.id == rid) = true
    · rw [@List.find?_cons_of_pos _ (fun r => r.id == rid) x xs hx] at h
      injection h with h'
      subst h'
      simp only [List.map_cons]
      refine Eq.trans (List.find?_cons_of_pos _ ?_) ?_
      · simp [hx]
      · simp [hx]
    · rw [@List.find?_cons_of_neg _ (fun r => r.id == rid) x xs hx] at h
      have htail := ih h
      simp only [List.map_cons]
      refine Eq.trans (List.find?_cons_of_neg _ ?_) htail
      by_cases hp : (x.parent_factor_id == rev.parent_factor_id) = true
      · simp [hx, hp]
      · simp [hx, hp]

/-- Claim C2: activating an existing revision `R` yields exactly this
post-state: every other revision of `R`'s parent is inactive, `R` is
active, any parent factor row carries `R`'s data fields with
`updated_at` refreshed to `now`, measurements are untouched, and
resolving the factor now returns exactly `R.factor_value`. -/
theorem activate_revision_post (s : DB) (rid : Int) (now : Int)
    (rev : EmissionFactorRevision)
    (hfind : s.revisions.find? (fun r => r.id == rid) = some rev) :
    ∃ s', activate_revision s rid now = .ok s' ∧ ActivatedState s rid now rev s' := by
  refine ⟨{ s with
      revisions := (s.revisions.map (fun r =>
        if r.parent_factor_id == rev.parent_factor_id then { r with is_active := false }
        else r)).map (fun r => if r.id == rid then { r with is_active := true } else r)
      factors := s.factors.map (fun f =>
        if f.id == rev.parent_factor_id then mirrorRevision f rev now else f) },
    ?_, ?_, ?_, ?_, rfl, ?_⟩
  · simp [activate_revision, hfind]
  · intro r hr hpar hid
    obtain ⟨y, hy, rfl⟩ := List.mem_map.mp hr
    obtain ⟨r0, hr0, rfl⟩ := List.mem_map.mp hy
    by_cases h1 : (r0.parent_factor_id == rev.parent_factor_id) = true <;>
      by_cases h2 : (r0.id == rid) = true <;>
        simp [h1, h2] at hpar hid ⊢ <;> simp_all
  · intro r hr hid
    obtain ⟨y, hy, rfl⟩ := List.mem_map.mp hr
    obtain ⟨r0, hr0, rfl⟩ := List.mem_map.mp hy
    by_cases h1 : (r0.parent_factor_id == rev.parent_factor_id) = true <;>
      by_cases h2 : (r0.id == rid) = true <;>
        simp [h1, h2] at hid ⊢ <;> simp_all
  · intro f hf hid
    obtain ⟨f0, hf0, rfl⟩ := List.mem_map.mp hf
    by_cases h1 : (f0.id == rev.parent_factor_id) = true
    · simp [h1, mirrorRevision]
    · simp [h1] at hid ⊢
      simp_all
  · show get_active_emission_factor_value _ rev.parent_factor_id = some rev.factor_value
    unfold get_active_emission_factor_value
    rw [show ({ s with
        revisions := (s.revisions.map (fun r =>
          if r.parent_factor_id == rev.parent_factor_id then { r with is_active := false }
          else r)).map (fun r => if r.id == rid then { r with is_active := true } else r)
        factors := s.factors.map (fun f =>
          if f.id == rev.parent_factor_id then mirrorRevision f rev now else f) } :
        DB).revisions
      = (s.revisions.map (fun r =>
          if r.parent_factor_id == rev.parent_factor_id then { r with is_active := false }
          else r)).map (fun r => if r.id == rid then { r with is_active := true } else r)
      from rfl]
    rw [activate_find_active rid rev s.revisions hfind]

theorem activate_revision_post_witness :
    sampleDB.revisions.find? (fun r => r.id == 1) = some sampleRevision1 ∧
    (∃ s', activate_revision sampleDB 1 5 = .ok s' ∧
      ActivatedState sampleDB 1 5 sampleRevision1 s') ∧
    activate_revision sampleDB 1 5 = .ok sampleDBAct :=
  ⟨by rfl, activate_revision_post sampleDB 1 5 sampleRevision1 (by rfl), by rfl⟩

theorem activeRevCount_mk (fa : List EmissionFactor) (rs : List EmissionFactorRevision)
    (ms : List Measurement) (fid : Int) :
    activeRevCount ⟨fa, rs, ms⟩ fid
      = rs.countP (fun r => r.parent_factor_id == fid && r.is_active) := rfl

theorem activate_revision_count (s : DB) (rid : Int) (rev : EmissionFactorRevision)
    (hfind : s.revisions.find? (fun r => r.id == rid) = some rev)
    (hids : (s.revisions.map (fun r => r.id)).Nodup)
    (hinv : ActiveInvariant s) (fid : Int) :
    ((s.revisions.map (fun r =>
        if r.parent_factor_id == rev.parent_factor_id then { r with is_active := false }
        else r)).map
      (fun r => if r.id == rid then { r with is_active := true } else r)).countP
      (fun r => r.parent_factor_id == fid && r.is_active) ≤ 1 := by
  rw [List.countP_map, List.countP_map]
  by_cases hfid : fid = rev.parent_factor_id
  · subst hfid
    refine le_trans (countP_mono_mem ?_) (countP_id_le_one hids rid)
    intro r hr hpr
    by_cases h2 : (r.id == rid) = true
    · exact h2
    · exfalso
      by_cases h1 : (r.parent_factor_id == rev.parent_factor_id) = true <;>
        simp [Function.comp, h1, h2] at hpr
  · have hq : s.revisions.countP
        ((((fun r => r.parent_factor_id == fid && r.is_active)) ∘
          (fun r => if r.id == rid then { r with is_active := true } else r)) ∘
          (fun r => if r.parent_factor_id == rev.parent_factor_id then
            { r with is_active := false } else r))
        = s.revisions.countP (fun r => r.parent_factor_id == fid && r.is_active) := by
      apply countP_congr_mem
      intro r hr
      by_cases h2 : (r.id == rid) = true
      · have hrev : r = rev := by
          have hmem := List.mem_of_find?_eq_some hfind
          have hpred := List.find?_some hfind
          simp only [beq_iff_eq] at h2 hpred
          exact List.inj_on_of_nodup_map hids hr hmem (by rw [h2, hpred])
        subst hrev
        have hne : (r.parent_factor_id == fid) = false := by
          simp only [beq_eq_false_iff_ne, ne_eq]
          intro hc
          exact hfid hc.symm
        by_cases h1 : (r.parent_factor_id == r.parent_factor_id) = true <;>
          simp [Function.comp, h1, h2, hne]
      · by_cases h1 : (r.parent_factor_id == rev.parent_factor_id) = true
        · have hne : (r.parent_factor_id == fid) = false := by
            simp only [beq_iff_eq] at h1
            rw [h1]
            simp only [beq_eq_false_iff_ne, ne_eq]
            intro hc
            exact hfid hc.symm
          simp [Function.comp, h1, h2, hne]
        · simp [Function.comp, h1, h2]
    rw [hq]
    exact hinv fid

/-- Claim C1: for every parent factor id at most one revision is
active, and the invariant is preserved by the three revision
operations: creation (the new row is inactive), activation (all
siblings are deactivated before the target is activated) and deletion
(which only ever removes a row, and never the active one). -/
theorem revision_ops_preserve_invariant (s : DB)
    (hinv : ActiveInvariant s)
    (hids : (s.revisions.map (fun r => r.id)).Nodup) :
    (∀ fid data now s', create_revision s fid data now = .ok s' → ActiveInvariant s') ∧
    (∀ rid now s', activate_revision s rid now = .ok s' → ActiveInvariant s') ∧
    (∀ rid s', delete_revision s rid = .ok s' → ActiveInvariant s') := by
  refine ⟨?_, ?_, ?_⟩
  · intro fid data now s' h
    cases hf : s.factors.find? (fun g => g.id == fid) with
    | none => simp [create_revision, hf] at h
    | some f =>
      obtain ⟨rev, hok, hia, hpar, hver, hres⟩ := create_revision_ok s fid data now f hf
      rw [hok] at h
      injection h with h'
      subst h'
      intro fid2
      rw [activeRevCount_mk, List.countP_append]
      have h2 := hinv fid2
      rw [activeRevCount] at h2
      have hz : ([rev] : List EmissionFactorRevision).countP
          (fun r => r.parent_factor_id == fid2 && r.is_active) = 0 := by
        simp [List.countP_cons, hia]
      rw [hz]
      omega
  · intro rid now s' h
    cases hfind : s.revisions.find? (fun r => r.id == rid) with
    | none => simp [activate_revision, hfind] at h
    | some rev =>
      have hok2 : activate_revision s rid now = .ok { s with
          revisions := (s.revisions.map (fun r =>
            if r.parent_factor_id == rev.parent_factor_id then { r with is_active := false }
            else r)).map (fun r => if r.id == rid then { r with is_active := true } else r)
          factors := s.factors.map (fun f =>
            if f.id == rev.parent_factor_id then mirrorRevision f rev now else f) } := by
        simp [activate_revision, hfind]
      rw [hok2] at h
      injection h with h'
      subst h'
      intro fid
      rw [activeRevCount_mk]
      exact activate_revision_count s rid rev hfind hids hinv fid
  · intro rid s' h
    cases hfind : s.revisions.find? (fun r => r.id == rid) with
    | none => simp [delete_revision, hfind] at h
    | some rev =>
      by_cases hact : rev.is_active = true
      · simp [delete_revision, hfind, hact] at h
      · by_cases hcnt : (s.revisions.filter
            (fun r => r.parent_factor_id == rev.parent_factor_id)).length ≤ 1
        · simp [delete_revision, hfind, hact, hcnt] at h
        · have hok : delete_revision s rid = .ok { s with
              revisions := s.revisions.eraseP (fun r => r.id == rid) } := by
            simp only [delete_revision, hfind]
            rw [if_neg (by simp [hact]), if_neg hcnt]
          rw [hok] at h
          injection h with h'
          subst h'
          intro fid
          rw [activeRevCount_mk]
          exact le_trans ((List.eraseP_sublist s.revisions).countP_le _) (hinv fid)

theorem revision_ops_preserve_invariant_witness :
    ActiveInvariant sampleDB ∧
    (sampleDB.revisions.map (fun r => r.id)).Nodup ∧
    delete_revision sampleDB 1 = .ok sampleDBDel ∧
    activeRevCount sampleDBDel 1 ≤ 1 :=
  ⟨activeInvariant_check sampleDB (by decide), by decide, by rfl,
    (revision_ops_preserve_invariant sampleDB
      (activeInvariant_check sampleDB (by decide)) (by decide)).2.2 1 sampleDBDel
      (by rfl) 1⟩

/-- Claim C10: deleting an emission factor removes the factor row and
every revision with that `parent_factor_id` in one operation, leaves
every measurement untouched (dangling `emission_factor_id` references
included), disturbs no other factor or revision, and afterwards the
resolver answers `none` for the deleted id. -/
theorem delete_factor_frame (s : DB) (fid : Int) (f : EmissionFactor)
    (hfind : s.factors.find? (fun g => g.id == fid) = some f)
    (hfids : (s.factors.map (fun g => g.id)).Nodup) :
    ∃ s', delete_emission_factor s fid = .ok s' ∧ DeleteFactorSpec s fid s' := by
  obtain ⟨l1, l2, heq, hl1, herase⟩ := find?_eraseP_decomp _ s.factors f hfind
  have hfid' : f.id = fid := by simpa using List.find?_some hfind
  have hmemf : f ∈ s.factors := List.mem_of_find?_eq_some hfind
  have hgone : ∀ g ∈ s.factors.eraseP (fun g => g.id == fid), g.id ≠ fid := by
    intro g hg hc
    rw [herase] at hg
    have hmem_g : g ∈ s.factors := by
      rw [heq]
      rcases List.mem_append.mp hg with h | h
      · exact List.mem_append.mpr (Or.inl h)
      · exact List.mem_append.mpr (Or.inr (List.mem_cons_of_mem _ h))
    have hgf : g = f := List.inj_on_of_nodup_map hfids hmem_g hmemf (by rw [hc, hfid'])
    subst hgf
    rcases List.mem_append.mp hg with h1 | h2
    · have := hl1 g h1
      rw [hc] at this
      simp at this
    · have hnd := hfids
      rw [heq, List.map_append, List.map_cons] at hnd
      have hdis := (List.nodup_append.mp hnd).2.1
      have := (List.nodup_cons.mp hdis).1
      exact this (List.mem_map.mpr ⟨g, h2, rfl⟩)
  refine ⟨{ s with
      revisions := s.revisions.filter (fun r => !(r.parent_factor_id == fid))
      factors := s.factors.eraseP (fun g => g.id == fid) },
    ?_, rfl, ?_, ?_, ?_, ?_, ?_, ?_⟩
  · simp [delete_emission_factor, hfind]
  · intro r hr
    have hpred := (List.mem_filter.mp hr).2
    simpa using hpred
  · intro r hr hne
    exact List.mem_filter.mpr ⟨hr, by simp [hne]⟩
  · intro r hr
    exact (List.mem_filter.mp hr).1
  · exact hgone
  · intro g hg hne
    rw [herase]
    rw [heq] at hg
    rcases List.mem_append.mp hg with h1 | h2
    · exact List.mem_append.mpr (Or.inl h1)
    · rcases List.mem_cons.mp h2 with rfl | h3
      · exact absurd hfid' hne
      · exact List.mem_append.mpr (Or.inr h3)
  · have h1 : (s.revisions.filter (fun r => !(r.parent_factor_id == fid))).find?
        (fun r => r.parent_factor_id == fid && r.is_active) = none := by
      rw [List.find?_eq_none]
      intro r hr
      have hpred := (List.mem_filter.mp hr).2
      simp at hpred
      simp [hpred]
    have h2 : (s.factors.eraseP (fun g => g.id == fid)).find?
        (fun g => g.id == fid) = none := by
      rw [List.find?_eq_none]
      intro g hg
      have := hgone g hg
      simpa using this
    unfold get_active_emission_factor_value
    rw [show ({ s with
        revisions := s.revisions.filter (fun r => !(r.parent_factor_id == fid))
        factors := s.factors.eraseP (fun g => g.id == fid) } : DB).revisions
      = s.revisions.filter (fun r => !(r.parent_factor_id == fid)) from rfl]
    rw [show ({ s with
        revisions := s.revisions.filter (fun r => !(r.parent_factor_id == fid))
        factors := s.factors.eraseP (fun g => g.id == fid) } : DB).factors
      = s.factors.eraseP (fun g => g.id == fid) from rfl]
    rw [h1, h2]

theorem delete_factor_frame_witness :
    sampleDB.factors.find? (fun g => g.id == 1) = some sampleFactor ∧
    (sampleDB.factors.map (fun g => g.id)).Nodup ∧
    (∃ s', delete_emission_factor sampleDB 1 = .ok s' ∧ DeleteFactorSpec sampleDB 1 s') :=
  ⟨by rfl, by decide, delete_factor_frame sampleDB 1 sampleFactor (by rfl) (by decide)⟩
